import Mathlib

/-!
# Verification of the LRUSS URL-shortening service core

Shallow embedding of the LRUSS (Redis-based URL shortening service) core:
the store model, the base-62 encoder, the rate limiter (`allowedRate`),
the shortening handler (`HandleAPI`), the resolver (`HandleRedirect`),
the CSRF guard (`GetCSRF`/`CheckCSRF`), the session manager
(`Auth`/`Logout`) and the admin statistics page (`Index`).

The Redis store is modelled as an association list from keys to entries;
an entry carries a value (integer, string, or set of strings) and an
optional absolute expiry time.  Time is an explicit `Nat` parameter; a key
with expiry `t` is live at instant `now` iff `now < t`.  Commands mirror
the subset of Redis used by the code: INCR, EXPIRE, GET, SET, SETNX,
SISMEMBER, SREM, SMEMBERS, KEYS (prefix patterns) and TTL.
-/

namespace Lruss

/-- A Redis value: integer (Redis integer-encoded string), plain string,
or set of strings. -/
inductive RVal where
  | int (n : Int)
  | str (s : String)
  | sset (members : List String)
deriving DecidableEq, Repr

/-- A stored entry: value plus optional absolute expiry instant. -/
structure Entry where
  val : RVal
  exp : Option Nat
deriving DecidableEq, Repr

/-- The Redis keyspace, modelled as an association list. -/
abbrev Store := List (String × Entry)

/-- Raw association-list lookup (ignores expiry). -/
def lookupEntry : Store → String → Option Entry
  | [], _ => none
  | (k, e) :: rest, key => if k = key then some e else lookupEntry rest key

/-- Is an entry live (not yet expired) at instant `now`? -/
def isLive (e : Entry) (now : Nat) : Bool :=
  match e.exp with
  | none => true
  | some t => now < t

/-- Value of a key at instant `now`, treating expired keys as absent. -/
def liveGet (st : Store) (now : Nat) (key : String) : Option RVal :=
  match lookupEntry st key with
  | some e => if isLive e now then some e.val else none
  | none => none

/-- Replace (or create) the entry for `key`. -/
def setEntry (st : Store) (key : String) (e : Entry) : Store :=
  (key, e) :: st.filter (fun p => p.1 != key)

/-- Redis error kinds observed by the code: `redis.ErrNil` (absent key),
WRONGTYPE, or a reply-conversion failure. -/
inductive RErr where
  | nil
  | wrongType
  | parse
deriving DecidableEq, Repr

/-- `INCR key`: create an integer counter at 1, or increment a live
integer value (preserving its expiry); error on a non-integer value. -/
def doIncr (st : Store) (now : Nat) (key : String) : Except RErr (Int × Store) :=
  match lookupEntry st key with
  | none => .ok (1, setEntry st key ⟨.int 1, none⟩)
  | some e =>
    if isLive e now then
      match e.val with
      | .int n => .ok (n + 1, setEntry st key ⟨.int (n + 1), e.exp⟩)
      | _ => .error .wrongType
    else .ok (1, setEntry st key ⟨.int 1, none⟩)

/-- `EXPIRE key secs`: set the expiry of a live key to `now + secs`;
returns 1 on success, 0 when the key is absent. -/
def doExpire (st : Store) (now : Nat) (key : String) (secs : Nat) : Int × Store :=
  match lookupEntry st key with
  | none => (0, st)
  | some e =>
    if isLive e now then (1, setEntry st key ⟨e.val, some (now + secs)⟩)
    else (0, st)

/-- `redis.String(GET key)`: absent gives `ErrNil`; integers are returned
in their decimal string form (Redis stores them as strings); a set value
is a WRONGTYPE error. -/
def getString (st : Store) (now : Nat) (key : String) : Except RErr String :=
  match liveGet st now key with
  | none => .error .nil
  | some (.str s) => .ok s
  | some (.int n) => .ok (toString n)
  | some (.sset _) => .error .wrongType

/-- `redis.Int64(GET key)`: absent gives `ErrNil`; a non-numeric string is
a conversion error; a set value is a WRONGTYPE error. -/
def getInt (st : Store) (now : Nat) (key : String) : Except RErr Int :=
  match liveGet st now key with
  | none => .error .nil
  | some (.int n) => .ok n
  | some (.str s) =>
    match s.toInt? with
    | some n => .ok n
    | none => .error .parse
  | some (.sset _) => .error .wrongType

/-- `SET key v`: unconditional overwrite, clearing any expiry. -/
def doSet (st : Store) (key v : String) : Store :=
  setEntry st key ⟨.str v, none⟩

/-- `SETNX key v`: set only when the key is absent; returns 1 when the
write happened, 0 otherwise. -/
def doSetNX (st : Store) (now : Nat) (key v : String) : Int × Store :=
  match liveGet st now key with
  | none => (1, doSet st key v)
  | some _ => (0, st)

/-- `SISMEMBER key m`: 1/0 membership test; absent keys are empty sets. -/
def doSIsMember (st : Store) (now : Nat) (key m : String) : Except RErr Int :=
  match liveGet st now key with
  | none => .ok 0
  | some (.sset l) => .ok (if m ∈ l then 1 else 0)
  | some _ => .error .wrongType

/-- `SREM key m`: remove a member from a live set (preserving expiry);
no-op on an absent key. -/
def doSRem (st : Store) (now : Nat) (key m : String) : Except RErr (Int × Store) :=
  match lookupEntry st key with
  | none => .ok (0, st)
  | some e =>
    if isLive e now then
      match e.val with
      | .sset l =>
        .ok (if m ∈ l then 1 else 0, setEntry st key ⟨.sset (l.filter (· != m)), e.exp⟩)
      | _ => .error .wrongType
    else .ok (0, st)

/-- `SMEMBERS key`: members of a live set; absent keys are empty sets. -/
def doSMembers (st : Store) (now : Nat) (key : String) : Except RErr (List String) :=
  match liveGet st now key with
  | none => .ok []
  | some (.sset l) => .ok l
  | some _ => .error .wrongType

/-- Does list `p` start list `s`? -/
def listPre : List Char → List Char → Bool
  | [], _ => true
  | _ :: _, [] => false
  | a :: as, b :: bs => a == b && listPre as bs

/-- `KEYS pat` for the patterns the code uses (`<pre>*`): the live keys
starting with `pre`. -/
def doKeys (st : Store) (now : Nat) (pre : String) : List String :=
  (st.filter (fun p => isLive p.2 now && listPre pre.data p.1.data)).map (fun p => p.1)

/-- `TTL key`: remaining seconds, -1 for no expiry, -2 for absent/expired. -/
def doTTL (st : Store) (now : Nat) (key : String) : Int :=
  match lookupEntry st key with
  | none => -2
  | some e =>
    match e.exp with
    | none => -1
    | some t => if now < t then Int.ofNat (t - now) else -2

/-! ## Basic store lemmas -/

@[simp]
theorem lookupEntry_setEntry_same (st : Store) (k : String) (e : Entry) :
    lookupEntry (setEntry st k e) k = some e := by
  simp [setEntry, lookupEntry]

theorem lookupEntry_filter_ne (st : Store) (k k' : String) (h : k' ≠ k) :
    lookupEntry (st.filter (fun p => p.1 != k)) k' = lookupEntry st k' := by
  induction st with
  | nil => simp [lookupEntry]
  | cons p rest ih =>
    by_cases hp : p.1 = k
    · have hne : k ≠ k' := fun hc => h hc.symm
      simp [List.filter, hp, lookupEntry, hne, ih]
    · simp only [List.filter_cons]
      have hb : (p.1 != k) = true := by simpa using hp
      rw [hb]
      by_cases hk' : p.1 = k'
      · simp [lookupEntry, hk']
      · simp [lookupEntry, hk', ih]

theorem lookupEntry_setEntry_ne (st : Store) (k k' : String) (e : Entry) (h : k' ≠ k) :
    lookupEntry (setEntry st k e) k' = lookupEntry st k' := by
  have hk : k ≠ k' := fun hc => h hc.symm
  simp [setEntry, lookupEntry, hk]
  exact lookupEntry_filter_ne st k k' h

/-! ## The bijective encoder (trim package)

The `trim` package sources (`Encode`, `Decode`, `IsShort`) are not under
`src/`; only their callers are.  The definitions below are modelled from
the spec, §4.1: a fixed-radix positional encoding over the alphabet of
digits plus upper- and lower-case letters (base 62), with
`decode(encode(n)) = (n, true)` and `ok = false` for any code containing a
character outside the alphabet. -/

/-- Modelled from the spec: the encoder's fixed alphabet — digits plus
upper/lower-case letters, base 62 (spec §4.1; `trim` sources are not under
src/). -/
def alphabet : List Char :=
  ("0123456789ABCDEFGHIJKLMNOPQRSTUVWXYZabcdefghijklmnopqrstuvwxyz").data

/-- Index of a character in a character list, if present. -/
def charIdx : List Char → Char → Option Nat
  | [], _ => none
  | a :: as, c => if a = c then some 0 else (charIdx as c).map (· + 1)

/-- The alphabet character for a base-62 digit. -/
def digitChar (d : Nat) : Char := alphabet.getD d '?'

/-- Base-62 digits of `n`, least significant first, with explicit fuel so
that the kernel can evaluate it (the fuel `n` always suffices). -/
def encDigitsF : Nat → Nat → List Nat
  | _, 0 => []
  | 0, _ + 1 => []
  | f + 1, n + 1 => ((n + 1) % 62) :: encDigitsF f ((n + 1) / 62)

/-- Base-62 digits of `n`, least significant first. -/
def encDigits (n : Nat) : List Nat := encDigitsF n n

/-- Modelled from the spec: `trim.Encode` — fixed-radix positional
base-62 encoding of a non-negative integer (spec §4.1; `trim` sources are
not under src/). -/
def Encode (n : Nat) : String :=
  if n = 0 then "0" else ⟨((encDigits n).reverse.map digitChar)⟩

/-- One step of decoding: accumulate a base-62 digit, or poison the state
on a character outside the alphabet. -/
def decStep (acc : Nat × Bool) (c : Char) : Nat × Bool :=
  match acc, charIdx alphabet c with
  | (n, true), some d => (n * 62 + d, true)
  | _, _ => (0, false)

/-- Modelled from the spec: `trim.Decode` — inverse of `Encode`,
returning `ok = false` when the code contains a character outside the
alphabet (spec §4.1; `trim` sources are not under src/). -/
def Decode (s : String) : Nat × Bool := s.data.foldl decStep (0, true)

/-! ### Encoder lemmas -/

theorem encDigitsF_fuel : ∀ n f f', n ≤ f → n ≤ f' → encDigitsF f n = encDigitsF f' n := by
  intro n
  induction n using Nat.strong_induction_on with
  | _ n ih =>
    intro f f' hf hf'
    match n, f, f' with
    | 0, f, f' => cases f <;> cases f' <;> rfl
    | n + 1, f + 1, f' + 1 =>
      simp only [encDigitsF]
      have hd : (n + 1) / 62 < n + 1 := Nat.div_lt_self (Nat.succ_pos n) (by norm_num)
      exact congrArg _ (ih ((n + 1) / 62) hd f f' (by omega) (by omega))

theorem encDigits_pos (n : Nat) (h : 0 < n) :
    encDigits n = (n % 62) :: encDigits (n / 62) := by
  match n, h with
  | n + 1, _ =>
    show encDigitsF (n + 1) (n + 1) = _
    simp only [encDigitsF]
    have hd : (n + 1) / 62 < n + 1 := Nat.div_lt_self (Nat.succ_pos n) (by norm_num)
    exact congrArg _ (encDigitsF_fuel ((n + 1) / 62) n ((n + 1) / 62) (by omega) le_rfl)

theorem encDigits_lt (n : Nat) : ∀ d ∈ encDigits n, d < 62 := by
  induction n using Nat.strong_induction_on with
  | _ n ih =>
    rcases Nat.eq_zero_or_pos n with h0 | h0
    · subst h0; intro d hd; simp [encDigits, encDigitsF] at hd
    · rw [encDigits_pos n h0]
      intro d hd
      rcases List.mem_cons.mp hd with h | h
      · subst h; exact Nat.mod_lt n (by norm_num)
      · exact ih (n / 62) (Nat.div_lt_self h0 (by norm_num)) d h

theorem encDigits_val (n : Nat) :
    ((encDigits n).reverse).foldl (fun a d => a * 62 + d) 0 = n := by
  induction n using Nat.strong_induction_on with
  | _ n ih =>
    rcases Nat.eq_zero_or_pos n with h0 | h0
    · subst h0; rfl
    · rw [encDigits_pos n h0]
      simp only [List.reverse_cons, List.foldl_append, List.foldl_cons, List.foldl_nil]
      rw [ih (n / 62) (Nat.div_lt_self h0 (by norm_num))]
      omega

theorem charIdx_digitChar : ∀ d : Fin 62, charIdx alphabet (digitChar d.val) = some d.val := by
  decide

theorem decode_digits (l : List Nat) (hl : ∀ d ∈ l, d < 62) :
    ∀ acc : Nat, (l.map digitChar).foldl decStep (acc, true)
      = (l.foldl (fun a d => a * 62 + d) acc, true) := by
  induction l with
  | nil => intro acc; rfl
  | cons d rest ih =>
    intro acc
    have hd : d < 62 := hl d (List.mem_cons_self d rest)
    have hstep : decStep (acc, true) (digitChar d) = (acc * 62 + d, true) := by
      simp [decStep, charIdx_digitChar ⟨d, hd⟩]
    simp only [List.map_cons, List.foldl_cons, hstep]
    exact ih (fun x hx => hl x (List.mem_cons_of_mem d hx)) (acc * 62 + d)

theorem charIdx_eq_none (l : List Char) (c : Char) (h : c ∉ l) : charIdx l c = none := by
  induction l with
  | nil => rfl
  | cons a as ih =>
    have hne : a ≠ c := fun hc => h (hc ▸ List.mem_cons_self a as)
    simp [charIdx, hne, ih (fun hc => h (List.mem_cons_of_mem a hc))]

theorem foldl_decStep_false (l : List Char) : ∀ m : Nat, (l.foldl decStep (m, false)).2 = false := by
  induction l with
  | nil => intro m; rfl
  | cons c rest ih =>
    intro m
    have : decStep (m, false) c = (0, false) := by
      cases h2 : charIdx alphabet c <;> simp [decStep, h2]
    simp only [List.foldl_cons, this]
    exact ih 0

theorem foldl_decStep_bad (l : List Char) (c : Char) (hc : c ∈ l)
    (hbad : charIdx alphabet c = none) :
    ∀ acc : Nat × Bool, (l.foldl decStep acc).2 = false := by
  induction l with
  | nil => exact absurd hc (List.not_mem_nil c)
  | cons a rest ih =>
    intro acc
    obtain ⟨m, b⟩ := acc
    cases b with
    | false => simpa using foldl_decStep_false (a :: rest) m
    | true =>
      rcases List.mem_cons.mp hc with h | h
      · subst h
        have : decStep (m, true) c = (0, false) := by simp [decStep, hbad]
        simp only [List.foldl_cons, this]
        exact foldl_decStep_false rest 0
      · simp only [List.foldl_cons]
        exact ih h (decStep (m, true) a)

/-! ## Configuration helpers (conf package) -/

/-- Modelled from the spec: `conf.DbKey` is not under src/ (only its
callers are).  Entities are addressed by `<prefix>:<identifier>` keys
where the prefix must come from the fixed closed set
{count, host, tpl, url, session, csrf, user}; any other prefix is
rejected (spec §3).  The in-src `web.dbKey` of an earlier revision has the
same shape over a subset of the prefixes. -/
def DbKey (pre value : String) : Except String String :=
  if pre ∈ ["count", "host", "tpl", "url", "session", "csrf", "user"] then
    .ok (pre ++ ":" ++ value)
  else
    .error "not found db key"

/-- `Cfg.ShortURL`: `fmt.Sprintf("%v/%v", c.Site, short)`. -/
def ShortURL (site short : String) : String := site ++ "/" ++ short

/-- Trailing-character trim of `conf.isValid`:
`c.Site = strings.TrimRight(c.Site, "/ ")`. -/
def normalizeSite (s : String) : String :=
  ⟨(s.data.reverse.dropWhile (fun c => c == '/' || c == ' ')).reverse⟩

/-- Rate-limiting configuration (`conf.rate`). -/
structure RateCfg where
  active : Bool
  interval : Nat
  count : Int
  checkUA : Bool
deriving DecidableEq, Repr

/-! ## Rate limiter and API handler (web package)

`web.allowedRate` and `web.HandleAPI` from src/web/web.go.  The host is
taken after Go's `net.SplitHostPort`; `url.Parse` of the submitted string
is passed in as an optional record carrying `u.IsAbs()` and `u.String()`,
since `net/url` is an external library.  The HTTP response writer is
external; the handler's observable outcome is its status/JSON payload and
the final store. -/

/-- The rate-limit client key: the host, optionally salted with the
user-agent (`host:ua:<ua>` suffix form per the code). -/
def clientKey (host ua : String) (checkUA : Bool) : String :=
  if checkUA then host ++ ":ua:" ++ ua else host

/-- Errors surfaced by handlers: a store error, or a failed `DbKey`. -/
inductive Err where
  | redis (e : RErr)
  | keyErr
deriving DecidableEq, Repr

/-- `web.allowedRate`: INCR the per-client counter; a counter that was
just created (value 1) gets the window expiry and the request is allowed;
otherwise the request is allowed iff the counter is strictly below
`Rate.Count`. -/
def allowedRate (host ua : String) (rc : RateCfg) (st : Store) (now : Nat) :
    Except Err (Bool × Store) :=
  match DbKey "host" (clientKey host ua rc.checkUA) with
  | .error _ => .error .keyErr
  | .ok hostKey =>
    match doIncr st now hostKey with
    | .error e => .error (.redis e)
    | .ok (hostRate, st1) =>
      if hostRate = 1 then .ok (true, (doExpire st1 now hostKey rc.interval).2)
      else if hostRate < rc.count then .ok (true, st1)
      else .ok (false, st1)

/-- The parse outcome of `url.Parse` on the submitted string: whether the
URL is absolute (`u.IsAbs()`) and its re-serialization (`u.String()`). -/
structure URLRec where
  isAbs : Bool
  str : String
deriving DecidableEq, Repr

/-- Outcome of `web.HandleAPI`: 400 with one of the three validation
messages, 429, 500, 503, or 200 with the JSON response fields. -/
inductive ApiOut where
  | badRequest (msg : String)
  | tooMany
  | internalErr
  | unavailable
  | ok (url short : String)
deriving DecidableEq, Repr

/-- `web.HandleAPI`: validate the submitted URL, consult the rate limiter
when active, INCR the shared counter, encode the fresh id, store
`url:<code> -> u.String()` and answer with the pair. -/
def HandleAPI (origin : String) (parsed : Option URLRec) (host ua : String)
    (rc : RateCfg) (site : String) (st : Store) (now : Nat) : ApiOut × Store :=
  if origin = "" then (.badRequest "not url", st)
  else
    match parsed with
    | none => (.badRequest "invalid url", st)
    | some u =>
      if !u.isAbs then (.badRequest "not absolute url", st)
      else
        match (if rc.active then allowedRate host ua rc st now else .ok (true, st)) with
        | .error _ => (.internalErr, st)
        | .ok (allowed, st1) =>
          if !allowed then (.tooMany, st1)
          else
            match DbKey "count" "count" with
            | .error _ => (.internalErr, st1)
            | .ok countKey =>
              match doIncr st1 now countKey with
              | .error _ => (.internalErr, st1)
              | .ok (num, st2) =>
                let short := Encode num.toNat
                match DbKey "url" short with
                | .error _ => (.internalErr, st2)
                | .ok urlKey =>
                  (.ok u.str (ShortURL site short), doSet st2 urlKey u.str)

/-- Outcome of `web.HandleRedirect`: 302 with the target, 404, 503, or
500. -/
inductive RedirOut where
  | redirect (url : String)
  | notFound
  | unavailable
  | internalErr
deriving DecidableEq, Repr

/-- `web.HandleRedirect`: a single point lookup of `url:<code>`;
`redis.ErrNil` maps to 404, any other store failure to 503, success to a
302 redirect at the stored URL. -/
def HandleRedirect (short : String) (st : Store) (now : Nat) : RedirOut :=
  match DbKey "url" short with
  | .error _ => .internalErr
  | .ok urlKey =>
    match getString st now urlKey with
    | .error .nil => .notFound
    | .error _ => .unavailable
    | .ok originURL => .redirect originURL

/-! ## Admin package: CSRF guard, sessions, statistics

From src/admin/admin.go.  Random token generation (`crypto/rand`) is
modelled by passing the fresh token in as a parameter; template rendering
and cookie emission are external I/O and are not part of the observable
outcome beyond the status code. -/

/-- `hmac.Equal` (Go `crypto/subtle.ConstantTimeCompare`), functionally:
equal lengths and pointwise-equal bytes. -/
def hmacEqual (x y : String) : Bool :=
  x.data.length == y.data.length && (List.zip x.data y.data).all (fun p => p.1 == p.2)

/-- `admin.CheckCSRF`: fetch `csrf:<user>`; `redis.ErrNil` substitutes
the sentinel string "not found"; compare with `hmac.Equal`. -/
def CheckCSRF (user token : String) (st : Store) (now : Nat) : Except Err Bool :=
  match DbKey "csrf" user with
  | .error _ => .error .keyErr
  | .ok csrfKey =>
    match getString st now csrfKey with
    | .error .nil => .ok (hmacEqual token "not found")
    | .error e => .error (.redis e)
    | .ok value => .ok (hmacEqual token value)

/-- `admin.GetCSRF`: return the stored token, or on `redis.ErrNil`
generate a fresh one (`freshTok` models `crypto/rand`), SETNX it and, when
the write won, EXPIRE it with the configured timeout. -/
def GetCSRF (user freshTok : String) (csrfTimeout : Nat) (st : Store) (now : Nat) :
    Except Err (String × Store) :=
  match DbKey "csrf" user with
  | .error _ => .error .keyErr
  | .ok csrfKey =>
    match getString st now csrfKey with
    | .ok token => .ok (token, st)
    | .error .nil =>
      let p := doSetNX st now csrfKey freshTok
      if p.1 = 1 then .ok (freshTok, (doExpire p.2 now csrfKey csrfTimeout).2)
      else .ok (freshTok, p.2)
    | .error e => .error (.redis e)

/-- Go `strings.SplitN(s, "::", 2)` on the character list: split at the
first occurrence of `::`, or `none` when the separator is absent. -/
def splitSep : List Char → Option (List Char × List Char)
  | [] => none
  | ':' :: ':' :: rest => some ([], rest)
  | c :: rest =>
    match splitSep rest with
    | some (a, b) => some (c :: a, b)
    | none => none

/-- Cookie-value split into `(username, session key)`. -/
def splitCookie (s : String) : Option (String × String) :=
  match splitSep s.data with
  | some (a, b) => some (⟨a⟩, ⟨b⟩)
  | none => none

/-- Outcome of `admin.Auth`: the authenticated username, or a failure. -/
inductive AuthOut where
  | ok (username : String)
  | err (msg : String)
deriving DecidableEq, Repr

/-- `admin.Auth`: split the session cookie on `::`, then test
set-membership of the token under `session:<username>`. -/
def Auth (cookie : Option String) (st : Store) (now : Nat) : AuthOut :=
  match cookie with
  | none => .err "no cookie"
  | some cv =>
    match splitCookie cv with
    | none => .err "invalid cookie value"
    | some (username, token) =>
      match DbKey "session" username with
      | .error _ => .err "key error"
      | .ok sessionKey =>
        match doSIsMember st now sessionKey token with
        | .error _ => .err "store error"
        | .ok found =>
          if found = 0 then .err "invalid session key" else .ok username

/-- `admin.Logout`: for an authenticated user, SREM the token presented
in the cookie from `session:<username>` and clear the cookie (the cookie
write is external I/O); all exits are 302 except a failing SREM (500). -/
def Logout (username : String) (cookie : Option String) (st : Store) (now : Nat) :
    Nat × Store :=
  if username = "anonymous" then (302, st)
  else
    match cookie with
    | none => (302, st)
    | some cv =>
      match splitCookie cv with
      | none => (302, st)
      | some (_, token) =>
        match DbKey "session" username with
        | .error _ => (500, st)
        | .ok sessionKey =>
          match doSRem st now sessionKey token with
          | .error _ => (500, st)
          | .ok (_, st1) => (302, st1)

/-- The admin statistics collected by `admin.Index`. -/
structure Statistics where
  lastNum : Int
  lastURL : String
  sessions : String
  csrf : String
  locks : List String
deriving DecidableEq, Repr

/-- Outcome of `admin.Index`: an error status or the statistics page. -/
inductive IndexOut where
  | err (status : Nat)
  | page (data : Statistics)
deriving DecidableEq, Repr

/-- The per-user session summaries of `admin.Index`: for each session key,
`<user> (<number of tokens>)`, where the user is the key with the prefix
(`len("session:*") - 1` characters) removed. -/
def sessionInfo (st : Store) (now : Nat) : List String → Except RErr (List String)
  | [] => .ok []
  | k :: ks =>
    match doSMembers st now k with
    | .error e => .error e
    | .ok l =>
      match sessionInfo st now ks with
      | .error e => .error e
      | .ok rest => .ok ((k.drop 8 ++ " (" ++ toString l.length ++ ")") :: rest)

/-- `admin.Index`: issue/fetch the CSRF token, read the shared counter
with GET (`redis.Int64`), and aggregate sessions and rate-limit locks;
every failing store read aborts with 500. -/
def Index (user freshTok site : String) (csrfTimeout : Nat) (st : Store) (now : Nat) :
    IndexOut × Store :=
  match GetCSRF user freshTok csrfTimeout st now with
  | .error _ => (.err 500, st)
  | .ok (csrfValue, st1) =>
    match DbKey "count" "count" with
    | .error _ => (.err 500, st1)
    | .ok countKey =>
      match getInt st1 now countKey with
      | .error _ => (.err 500, st1)
      | .ok n =>
        match sessionInfo st1 now (doKeys st1 now "session:") with
        | .error _ => (.err 500, st1)
        | .ok sessions =>
          let locks := (doKeys st1 now "host:").map
            (fun k => "[" ++ toString (doTTL st1 now k) ++ " sec.] " ++ k.drop 5)
          (.page { lastNum := n, lastURL := ShortURL site (Encode n.toNat),
                   sessions := String.intercalate ", " sessions,
                   csrf := csrfValue, locks := locks }, st1)

/-! ## String helper lemmas -/

theorem data_append (s t : String) : (s ++ t).data = s.data ++ t.data := rfl

theorem string_ext {a b : String} (h : a.data = b.data) : a = b := by
  cases a; cases b; exact congrArg String.mk h

theorem ne_of_getCh {i : Nat} {a b : String} {ca cb : Char}
    (ha : a.data.get? i = some ca) (hb : b.data.get? i = some cb) (hc : ca ≠ cb) :
    a ≠ b := by
  intro h
  subst h
  rw [ha] at hb
  exact hc (Option.some.inj hb)

theorem append_left_cancel {p a b : String} (h : p ++ a = p ++ b) : a = b := by
  have h2 : (p ++ a).data = (p ++ b).data := by rw [h]
  rw [data_append, data_append] at h2
  exact string_ext (List.append_cancel_left h2)

theorem hostKey_ne_countKey (a : String) : ("host:" ++ a) ≠ "count:count" := by
  obtain ⟨d⟩ := a
  exact ne_of_getCh (i := 0) rfl rfl (by decide)

theorem hostKey_ne_urlKey (a b : String) : ("host:" ++ a) ≠ ("url:" ++ b) := by
  obtain ⟨da⟩ := a
  obtain ⟨db⟩ := b
  exact ne_of_getCh (i := 0) rfl rfl (by decide)

theorem csrfKey_ne_countKey (a : String) : ("csrf:" ++ a) ≠ "count:count" := by
  obtain ⟨d⟩ := a
  exact ne_of_getCh (i := 1) rfl rfl (by decide)

theorem countKey_ne_urlKey (b : String) : ("count:count" : String) ≠ ("url:" ++ b) := by
  obtain ⟨db⟩ := b
  exact ne_of_getCh (i := 0) rfl rfl (by decide)

/-! ## Store helper lemmas -/

theorem liveGet_setEntry_same (st : Store) (now : Nat) (k : String) (e : Entry) :
    liveGet (setEntry st k e) now k = if isLive e now then some e.val else none := by
  simp [liveGet]

theorem liveGet_setEntry_ne (st : Store) (now : Nat) (k k' : String) (e : Entry)
    (h : k' ≠ k) : liveGet (setEntry st k e) now k' = liveGet st now k' := by
  simp [liveGet, lookupEntry_setEntry_ne st k k' e h]

theorem doIncr_fresh (st : Store) (now : Nat) (k : String)
    (h : lookupEntry st k = none) :
    doIncr st now k = .ok (1, setEntry st k ⟨.int 1, none⟩) := by
  simp [doIncr, h]

theorem doIncr_expired (st : Store) (now : Nat) (k : String) (e : Entry)
    (h : lookupEntry st k = some e) (hL : isLive e now = false) :
    doIncr st now k = .ok (1, setEntry st k ⟨.int 1, none⟩) := by
  simp [doIncr, h, hL]

theorem doIncr_live_int (st : Store) (now : Nat) (k : String) (c : Int) (x : Option Nat)
    (h : lookupEntry st k = some ⟨.int c, x⟩) (hL : isLive ⟨.int c, x⟩ now = true) :
    doIncr st now k = .ok (c + 1, setEntry st k ⟨.int (c + 1), x⟩) := by
  simp [doIncr, h, hL]

theorem doIncr_live_str (st : Store) (now : Nat) (k : String) (s : String) (x : Option Nat)
    (h : lookupEntry st k = some ⟨.str s, x⟩) (hL : isLive ⟨.str s, x⟩ now = true) :
    doIncr st now k = .error .wrongType := by
  simp [doIncr, h, hL]

theorem doIncr_live_sset (st : Store) (now : Nat) (k : String) (l : List String)
    (x : Option Nat)
    (h : lookupEntry st k = some ⟨.sset l, x⟩) (hL : isLive ⟨.sset l, x⟩ now = true) :
    doIncr st now k = .error .wrongType := by
  simp [doIncr, h, hL]

theorem doIncr_ok (st : Store) (now : Nat) (k : String) (m : Int) (st' : Store)
    (h : doIncr st now k = .ok (m, st')) :
    liveGet st' now k = some (.int m)
      ∧ (∀ k', k' ≠ k → lookupEntry st' k' = lookupEntry st k')
      ∧ m = (match liveGet st now k with | some (.int n) => n + 1 | _ => 1) := by
  cases hE : lookupEntry st k with
  | none =>
    rw [doIncr_fresh st now k hE] at h
    simp only [Except.ok.injEq, Prod.mk.injEq] at h
    obtain ⟨hm, hst⟩ := h
    subst hm; subst hst
    refine ⟨?_, fun k' hk' => lookupEntry_setEntry_ne st k k' _ hk', ?_⟩
    · simp [liveGet, isLive]
    · simp [liveGet, hE]
  | some e =>
    obtain ⟨v, x⟩ := e
    cases hL : isLive (⟨v, x⟩ : Entry) now with
    | false =>
      rw [doIncr_expired st now k ⟨v, x⟩ hE hL] at h
      simp only [Except.ok.injEq, Prod.mk.injEq] at h
      obtain ⟨hm, hst⟩ := h
      subst hm; subst hst
      refine ⟨?_, fun k' hk' => lookupEntry_setEntry_ne st k k' _ hk', ?_⟩
      · simp [liveGet, isLive]
      · simp [liveGet, hE, hL]
    | true =>
      cases v with
      | int n =>
        rw [doIncr_live_int st now k n x hE hL] at h
        simp only [Except.ok.injEq, Prod.mk.injEq] at h
        obtain ⟨hm, hst⟩ := h
        subst hm; subst hst
        refine ⟨?_, fun k' hk' => lookupEntry_setEntry_ne st k k' _ hk', ?_⟩
        · have hL2 : isLive (⟨RVal.int (n + 1), x⟩ : Entry) now = true := by
            simpa [isLive] using hL
          simp [liveGet, hL2]
        · simp [liveGet, hE, hL]
      | str s =>
        rw [doIncr_live_str st now k s x hE hL] at h
        exact absurd h (by simp)
      | sset l =>
        rw [doIncr_live_sset st now k l x hE hL] at h
        exact absurd h (by simp)

/-! ## DbKey reductions -/

theorem DbKey_count : DbKey "count" "count" = .ok "count:count" := rfl

theorem DbKey_host (v : String) : DbKey "host" v = .ok ("host:" ++ v) := rfl

theorem DbKey_url (v : String) : DbKey "url" v = .ok ("url:" ++ v) := rfl

theorem DbKey_session (v : String) : DbKey "session" v = .ok ("session:" ++ v) := rfl

theorem DbKey_csrf (v : String) : DbKey "csrf" v = .ok ("csrf:" ++ v) := rfl

/-! ## Rate limiter lemmas and claim C1 -/

theorem doExpire_live (st : Store) (now : Nat) (k : String) (secs : Nat) (e : Entry)
    (h : lookupEntry st k = some e) (hL : isLive e now = true) :
    doExpire st now k secs = (1, setEntry st k ⟨e.val, some (now + secs)⟩) := by
  simp [doExpire, h, hL]

theorem allowedRate_fresh (host ua : String) (rc : RateCfg) (st : Store) (now : Nat)
    (h : lookupEntry st ("host:" ++ clientKey host ua rc.checkUA) = none) :
    allowedRate host ua rc st now =
      .ok (true, setEntry (setEntry st ("host:" ++ clientKey host ua rc.checkUA)
            ⟨.int 1, none⟩) ("host:" ++ clientKey host ua rc.checkUA)
            ⟨.int 1, some (now + rc.interval)⟩) := by
  have h1 := doIncr_fresh st now ("host:" ++ clientKey host ua rc.checkUA) h
  have h2 := doExpire_live
    (setEntry st ("host:" ++ clientKey host ua rc.checkUA) ⟨.int 1, none⟩) now
    ("host:" ++ clientKey host ua rc.checkUA) rc.interval ⟨.int 1, none⟩
    (lookupEntry_setEntry_same _ _ _) rfl
  simp [allowedRate, DbKey_host, h1, h2]

theorem allowedRate_expired (host ua : String) (rc : RateCfg) (st : Store) (now : Nat)
    (e : Entry)
    (h : lookupEntry st ("host:" ++ clientKey host ua rc.checkUA) = some e)
    (hL : isLive e now = false) :
    allowedRate host ua rc st now =
      .ok (true, setEntry (setEntry st ("host:" ++ clientKey host ua rc.checkUA)
            ⟨.int 1, none⟩) ("host:" ++ clientKey host ua rc.checkUA)
            ⟨.int 1, some (now + rc.interval)⟩) := by
  have h1 := doIncr_expired st now ("host:" ++ clientKey host ua rc.checkUA) e h hL
  have h2 := doExpire_live
    (setEntry st ("host:" ++ clientKey host ua rc.checkUA) ⟨.int 1, none⟩) now
    ("host:" ++ clientKey host ua rc.checkUA) rc.interval ⟨.int 1, none⟩
    (lookupEntry_setEntry_same _ _ _) rfl
  simp [allowedRate, DbKey_host, h1, h2]

theorem allowedRate_live (host ua : String) (rc : RateCfg) (st : Store) (now : Nat)
    (c : Int) (x : Option Nat)
    (h : lookupEntry st ("host:" ++ clientKey host ua rc.checkUA) = some ⟨.int c, x⟩)
    (hL : isLive (⟨.int c, x⟩ : Entry) now = true) (hc : 1 ≤ c) :
    allowedRate host ua rc st now =
      .ok (decide (c + 1 < rc.count),
           setEntry st ("host:" ++ clientKey host ua rc.checkUA) ⟨.int (c + 1), x⟩) := by
  have h1 := doIncr_live_int st now ("host:" ++ clientKey host ua rc.checkUA) c x h hL
  have hne : ¬(c + 1 = 1) := by omega
  by_cases h2 : c + 1 < rc.count <;> simp [allowedRate, DbKey_host, h1, hne, h2]

/-- Results of `n` consecutive `allowedRate` calls for the same client at
the same instant, threading the store. -/
def rateResults (host ua : String) (rc : RateCfg) : Nat → Store → Nat → List (Option Bool)
  | 0, _, _ => []
  | n + 1, st, now =>
    match allowedRate host ua rc st now with
    | .ok (b, st') => some b :: rateResults host ua rc n st' now
    | .error _ => [none]

/-- C1, counterexample: with `Rate.Count = 3` and an empty store, three
requests from the same client within one window are answered
allow/allow/deny — the 3rd request of the window is already denied, so
`limit` allowed requests within a single window never occur and the
claim's premise of `limit` allowed same-window requests is unrealizable;
only `limit - 1` requests of a window are allowed. -/
theorem claim1_rate_counterexample :
    rateResults "1.2.3.4" "" ⟨true, 60, 3, false⟩ 3 [] 0
        = [some true, some true, some false]
      ∧ rateResults "1.2.3.4" "" ⟨true, 60, 3, false⟩ 3 [] 0
        ≠ [some true, some true, some true] := by
  constructor
  · decide
  · decide

/-- C1, amended: with rate limiting enabled (`limit = Rate.Count`,
`window = Rate.Interval`), (i) the first request of a fresh window is
allowed and sets the counter's expiry to `now + window`; (ii) a request
that finds a live counter `c ≥ 1` in the current window is allowed iff
`c + 1 < limit` — so a window admits only the `limit - 1` first requests,
and from the `limit`-th request on (in particular the `(limit+1)`-th) the
client is denied; (iii) the first request after the window has elapsed is
allowed again and starts a fresh window. -/
theorem claim1_rate_window (host ua : String) (rc : RateCfg) (st : Store)
    (now texp : Nat) (c : Int) (x : Option Nat) :
    (lookupEntry st ("host:" ++ clientKey host ua rc.checkUA) = none →
      allowedRate host ua rc st now =
        .ok (true, setEntry (setEntry st ("host:" ++ clientKey host ua rc.checkUA)
              ⟨.int 1, none⟩) ("host:" ++ clientKey host ua rc.checkUA)
              ⟨.int 1, some (now + rc.interval)⟩))
    ∧ (lookupEntry st ("host:" ++ clientKey host ua rc.checkUA) = some ⟨.int c, x⟩ →
       isLive (⟨.int c, x⟩ : Entry) now = true → 1 ≤ c →
      allowedRate host ua rc st now =
        .ok (decide (c + 1 < rc.count),
             setEntry st ("host:" ++ clientKey host ua rc.checkUA) ⟨.int (c + 1), x⟩))
    ∧ (lookupEntry st ("host:" ++ clientKey host ua rc.checkUA) = some ⟨.int c, some texp⟩ →
       texp ≤ now →
      allowedRate host ua rc st now =
        .ok (true, setEntry (setEntry st ("host:" ++ clientKey host ua rc.checkUA)
              ⟨.int 1, none⟩) ("host:" ++ clientKey host ua rc.checkUA)
              ⟨.int 1, some (now + rc.interval)⟩)) := by
  refine ⟨fun h => allowedRate_fresh host ua rc st now h,
          fun h hL hc => allowedRate_live host ua rc st now c x h hL hc,
          fun h ht => allowedRate_expired host ua rc st now ⟨.int c, some texp⟩ h ?_⟩
  simp [isLive]
  omega

/-- C1 witness: concrete instances of all three conjuncts of
`claim1_rate_window`. -/
theorem claim1_rate_window_witness :
    (allowedRate "1.2.3.4" "" ⟨true, 60, 5, false⟩ [] 0 =
       .ok (true, setEntry (setEntry [] ("host:" ++ clientKey "1.2.3.4" "" false)
             ⟨.int 1, none⟩) ("host:" ++ clientKey "1.2.3.4" "" false)
             ⟨.int 1, some 60⟩))
    ∧ (allowedRate "1.2.3.4" "" ⟨true, 60, 5, false⟩
         [("host:1.2.3.4", ⟨.int 4, some 60⟩)] 7 =
       .ok (decide ((4 : Int) + 1 < 5),
            setEntry [("host:1.2.3.4", ⟨.int 4, some 60⟩)]
              ("host:" ++ clientKey "1.2.3.4" "" false) ⟨.int 5, some 60⟩))
    ∧ (allowedRate "1.2.3.4" "" ⟨true, 60, 5, false⟩
         [("host:1.2.3.4", ⟨.int 4, some 60⟩)] 60 =
       .ok (true, setEntry (setEntry [("host:1.2.3.4", ⟨.int 4, some 60⟩)]
             ("host:" ++ clientKey "1.2.3.4" "" false)
             ⟨.int 1, none⟩) ("host:" ++ clientKey "1.2.3.4" "" false)
             ⟨.int 1, some 120⟩)) := by
  refine ⟨(claim1_rate_window "1.2.3.4" "" ⟨true, 60, 5, false⟩ [] 0 0 0 none).1 (by decide),
          (claim1_rate_window "1.2.3.4" "" ⟨true, 60, 5, false⟩
            [("host:1.2.3.4", ⟨.int 4, some 60⟩)] 7 0 4 (some 60)).2.1
            (by decide) (by decide) (by decide),
          (claim1_rate_window "1.2.3.4" "" ⟨true, 60, 5, false⟩
            [("host:1.2.3.4", ⟨.int 4, some 60⟩)] 60 60 4 none).2.2
            (by decide) (by decide)⟩

/-! ## Claim C2: encode/decode roundtrip -/

/-- C2: for every non-negative integer `n`, `Decode (Encode n) = (n, true)`;
and a string containing any character outside the encoder's fixed alphabet
decodes with `ok = false`. -/
theorem claim2_encode_decode (n : Nat) (s : String) (c : Char) :
    Decode (Encode n) = (n, true)
      ∧ (c ∈ s.data → c ∉ alphabet → (Decode s).2 = false) := by
  constructor
  · rcases Nat.eq_zero_or_pos n with h0 | h0
    · subst h0; decide
    · have hne : ¬(n = 0) := by omega
      rw [Encode, if_neg hne]
      show ((encDigits n).reverse.map digitChar).foldl decStep (0, true) = (n, true)
      rw [decode_digits ((encDigits n).reverse)
            (fun d hd => encDigits_lt n d (List.mem_reverse.mp hd)) 0]
      rw [encDigits_val n]
  · intro hc hal
    exact foldl_decStep_bad s.data c hc (charIdx_eq_none alphabet c hal) (0, true)

/-- C2 witness: the roundtrip at 4000 and rejection of a code containing
`~`. -/
theorem claim2_encode_decode_witness :
    Decode (Encode 4000) = (4000, true) ∧ (Decode "ab~").2 = false :=
  ⟨(claim2_encode_decode 4000 "ab~" '~').1,
   (claim2_encode_decode 4000 "ab~" '~').2 (by decide) (by decide)⟩

/-! ## HandleAPI lemmas and claims C3, C5, C10 -/

/-- The current counter reading of a store (0 when absent, as INCR would
treat it). -/
def counterValue (st : Store) (now : Nat) : Int :=
  match liveGet st now "count:count" with
  | some (.int n) => n
  | _ => 0

theorem liveGet_some (st : Store) (now : Nat) (k : String) (v : RVal)
    (h : liveGet st now k = some v) :
    ∃ e, lookupEntry st k = some e ∧ isLive e now = true ∧ e.val = v := by
  cases hE : lookupEntry st k with
  | none => simp [liveGet, hE] at h
  | some e =>
    simp only [liveGet, hE] at h
    cases hL : isLive e now with
    | false => rw [hL] at h; exact absurd h (by simp)
    | true => rw [hL] at h; simp at h; exact ⟨e, rfl, hL, h⟩

theorem doIncr_counter_succ (st : Store) (now : Nat) (k : String) (m : Int) (st' : Store)
    (h : doIncr st now k = .ok (m, st')) :
    m = (match liveGet st now k with | some (.int n) => n | _ => 0) + 1 := by
  have h3 := (doIncr_ok st now k m st' h).2.2
  cases hv : liveGet st now k with
  | none => rw [hv] at h3; simpa using h3
  | some v =>
    cases v with
    | int n => rw [hv] at h3; simpa using h3
    | str s =>
      obtain ⟨e, hE, hL, hval⟩ := liveGet_some st now k _ hv
      obtain ⟨v0, x⟩ := e
      simp only [] at hval
      subst hval
      rw [doIncr_live_str st now k s x hE hL] at h
      exact absurd h (by simp)
    | sset l =>
      obtain ⟨e, hE, hL, hval⟩ := liveGet_some st now k _ hv
      obtain ⟨v0, x⟩ := e
      simp only [] at hval
      subst hval
      rw [doIncr_live_sset st now k l x hE hL] at h
      exact absurd h (by simp)

theorem handleAPI_success (origin : String) (u : URLRec) (host ua site : String)
    (rc : RateCfg) (st st1 st2 : Store) (now : Nat) (nid : Int)
    (h0 : origin ≠ "") (hu : u.isAbs = true)
    (hrate : (if rc.active then allowedRate host ua rc st now else .ok (true, st))
      = .ok (true, st1))
    (hinc : doIncr st1 now "count:count" = .ok (nid, st2)) :
    HandleAPI origin (some u) host ua rc site st now
      = (.ok u.str (ShortURL site (Encode nid.toNat)),
         doSet st2 ("url:" ++ Encode nid.toNat) u.str) := by
  simp [HandleAPI, h0, hu, hrate, DbKey_count, hinc, DbKey_url]

theorem doExpire_frame (st : Store) (now : Nat) (k : String) (secs : Nat) (k' : String)
    (h : k' ≠ k) : lookupEntry (doExpire st now k secs).2 k' = lookupEntry st k' := by
  unfold doExpire
  cases hE : lookupEntry st k with
  | none => rfl
  | some e =>
    cases hL : isLive e now with
    | false => simp [hL]
    | true => simp [hL, lookupEntry_setEntry_ne st k k' _ h]

theorem allowedRate_frame (host ua : String) (rc : RateCfg) (st : Store) (now : Nat)
    (b : Bool) (st1 : Store)
    (h : allowedRate host ua rc st now = .ok (b, st1)) :
    ∀ k, k ≠ "host:" ++ clientKey host ua rc.checkUA →
      lookupEntry st1 k = lookupEntry st k := by
  intro k hk
  cases hI : doIncr st now ("host:" ++ clientKey host ua rc.checkUA) with
  | error e => simp [allowedRate, DbKey_host, hI] at h
  | ok p =>
    obtain ⟨rate, stA⟩ := p
    simp only [allowedRate, DbKey_host, hI] at h
    have hfr := (doIncr_ok st now _ rate stA hI).2.1 k hk
    by_cases h1 : rate = 1
    · rw [if_pos h1] at h
      simp only [Except.ok.injEq, Prod.mk.injEq] at h
      obtain ⟨_, hst⟩ := h
      rw [← hst]
      rw [doExpire_frame stA now _ rc.interval k hk]
      exact hfr
    · rw [if_neg h1] at h
      by_cases h2 : rate < rc.count
      · rw [if_pos h2] at h
        simp only [Except.ok.injEq, Prod.mk.injEq] at h
        obtain ⟨_, hst⟩ := h
        rw [← hst]; exact hfr
      · rw [if_neg h2] at h
        simp only [Except.ok.injEq, Prod.mk.injEq] at h
        obtain ⟨_, hst⟩ := h
        rw [← hst]; exact hfr

/-- C3: a successful shorten operation (valid absolute URL, rate limiter
passed or inactive, counter INCR succeeding with fresh id `nid`) returns
the pair `(u.String(), site/<Encode nid>)`, increments the shared counter
by exactly one, stores `url:<Encode nid> -> u.String()`, and resolving
`<Encode nid>` on the resulting store immediately redirects to the
submitted URL; when the counter was at 0 the fresh id is 1. -/
theorem claim3_shorten_success (origin : String) (u : URLRec) (host ua site : String)
    (rc : RateCfg) (st st1 st2 : Store) (now : Nat) (nid : Int)
    (h0 : origin ≠ "") (hu : u.isAbs = true)
    (hrate : (if rc.active then allowedRate host ua rc st now else .ok (true, st))
      = .ok (true, st1))
    (hinc : doIncr st1 now "count:count" = .ok (nid, st2)) :
    HandleAPI origin (some u) host ua rc site st now
      = (.ok u.str (ShortURL site (Encode nid.toNat)),
         doSet st2 ("url:" ++ Encode nid.toNat) u.str)
    ∧ counterValue (HandleAPI origin (some u) host ua rc site st now).2 now
        = counterValue st1 now + 1
    ∧ liveGet (HandleAPI origin (some u) host ua rc site st now).2 now
        ("url:" ++ Encode nid.toNat) = some (.str u.str)
    ∧ HandleRedirect (Encode nid.toNat)
        (HandleAPI origin (some u) host ua rc site st now).2 now = .redirect u.str
    ∧ (counterValue st1 now = 0 → nid = 1) := by
  have hmain := handleAPI_success origin u host ua site rc st st1 st2 now nid h0 hu hrate hinc
  have hlive := (doIncr_ok st1 now "count:count" nid st2 hinc).1
  have hsucc := doIncr_counter_succ st1 now "count:count" nid st2 hinc
  have hcnt2 : liveGet (doSet st2 ("url:" ++ Encode nid.toNat) u.str) now "count:count"
      = some (.int nid) := by
    rw [doSet, liveGet_setEntry_ne st2 now _ "count:count" _
        (countKey_ne_urlKey (Encode nid.toNat))]
    exact hlive
  have hurl : liveGet (doSet st2 ("url:" ++ Encode nid.toNat) u.str) now
      ("url:" ++ Encode nid.toNat) = some (.str u.str) := by
    rw [doSet, liveGet_setEntry_same]
    rfl
  refine ⟨hmain, ?_, ?_, ?_, ?_⟩
  · rw [hmain]
    show counterValue (doSet st2 ("url:" ++ Encode nid.toNat) u.str) now
      = counterValue st1 now + 1
    simp only [counterValue, hcnt2]
    exact hsucc
  · rw [hmain]
    exact hurl
  · rw [hmain]
    show HandleRedirect (Encode nid.toNat)
      (doSet st2 ("url:" ++ Encode nid.toNat) u.str) now = .redirect u.str
    simp only [HandleRedirect, DbKey_url, getString, hurl]
  · intro hz
    simp only [counterValue] at hz
    rw [hsucc, hz]
    norm_num

/-- C3 witness: shortening `https://example.com/a` on an empty store (no
rate limiting) yields id 1, code `1`, the stored mapping and the
redirect. -/
theorem claim3_shorten_success_witness :
    HandleAPI "https://example.com/a" (some ⟨true, "https://example.com/a"⟩)
        "1.2.3.4" "" ⟨false, 60, 3, false⟩ "http://sh.rt" [] 0
      = (.ok "https://example.com/a" (ShortURL "http://sh.rt" (Encode 1)),
         doSet (setEntry [] "count:count" ⟨.int 1, none⟩) ("url:" ++ Encode 1)
           "https://example.com/a")
    ∧ HandleRedirect (Encode 1)
        (HandleAPI "https://example.com/a" (some ⟨true, "https://example.com/a"⟩)
          "1.2.3.4" "" ⟨false, 60, 3, false⟩ "http://sh.rt" [] 0).2 0
      = .redirect "https://example.com/a" := by
  have h := claim3_shorten_success "https://example.com/a"
    ⟨true, "https://example.com/a"⟩ "1.2.3.4" "" "http://sh.rt"
    ⟨false, 60, 3, false⟩ [] [] (setEntry [] "count:count" ⟨.int 1, none⟩) 0 1
    (by decide) rfl rfl rfl
  exact ⟨h.1, h.2.2.2.1⟩

/-- C5: every rejection of a shortening request — empty URL, unparsable
URL, non-absolute URL, or rate-limit denial — returns the corresponding
error outcome and leaves the shared counter and every `url:*` mapping
untouched (the rate-limited case mutates only the client's `host:*`
counter). -/
theorem claim5_reject_frame (origin : String) (u : URLRec) (host ua site : String)
    (rc : RateCfg) (st st1 : Store) (now : Nat) :
    (HandleAPI "" (some u) host ua rc site st now = (.badRequest "not url", st))
    ∧ (origin ≠ "" →
        HandleAPI origin none host ua rc site st now = (.badRequest "invalid url", st))
    ∧ (origin ≠ "" → u.isAbs = false →
        HandleAPI origin (some u) host ua rc site st now
          = (.badRequest "not absolute url", st))
    ∧ (origin ≠ "" → u.isAbs = true → rc.active = true →
       allowedRate host ua rc st now = .ok (false, st1) →
        HandleAPI origin (some u) host ua rc site st now = (.tooMany, st1)
        ∧ lookupEntry st1 "count:count" = lookupEntry st "count:count"
        ∧ ∀ sfx, lookupEntry st1 ("url:" ++ sfx) = lookupEntry st ("url:" ++ sfx)) := by
  refine ⟨by simp [HandleAPI], ?_, ?_, ?_⟩
  · intro h0
    simp [HandleAPI, h0]
  · intro h0 hu
    simp [HandleAPI, h0, hu]
  · intro h0 hu hact hrl
    have hfr := allowedRate_frame host ua rc st now false st1 hrl
    refine ⟨by simp [HandleAPI, h0, hu, hact, hrl], ?_, ?_⟩
    · exact hfr "count:count" (fun hc => hostKey_ne_countKey _ hc.symm)
    · intro sfx
      exact hfr ("url:" ++ sfx) (fun hc => hostKey_ne_urlKey _ sfx hc.symm)

/-- C5 witness: a non-absolute submission and a rate-limited submission,
both leaving counter and `url:*` keys unchanged. -/
theorem claim5_reject_frame_witness :
    HandleAPI "not-a-url" (some ⟨false, "not-a-url"⟩) "1.2.3.4" ""
        ⟨true, 60, 3, false⟩ "http://sh.rt"
        [("count:count", ⟨.int 7, none⟩)] 0
      = (.badRequest "not absolute url", [("count:count", ⟨.int 7, none⟩)])
    ∧ (HandleAPI "https://example.com/a" (some ⟨true, "https://example.com/a"⟩)
        "1.2.3.4" "" ⟨true, 60, 3, false⟩ "http://sh.rt"
        [("count:count", ⟨.int 7, none⟩), ("host:1.2.3.4", ⟨.int 5, some 60⟩)] 0
      = (.tooMany, setEntry
          [("count:count", ⟨.int 7, none⟩), ("host:1.2.3.4", ⟨.int 5, some 60⟩)]
          "host:1.2.3.4" ⟨.int 6, some 60⟩)
        ∧ lookupEntry (setEntry
            [("count:count", ⟨.int 7, none⟩), ("host:1.2.3.4", ⟨.int 5, some 60⟩)]
            "host:1.2.3.4" ⟨.int 6, some 60⟩) "count:count"
          = lookupEntry
            [("count:count", ⟨.int 7, none⟩), ("host:1.2.3.4", ⟨.int 5, some 60⟩)]
            "count:count") := by
  have h1 := (claim5_reject_frame "not-a-url" ⟨false, "not-a-url"⟩ "1.2.3.4" ""
    "http://sh.rt" ⟨true, 60, 3, false⟩ [("count:count", ⟨.int 7, none⟩)]
    [("count:count", ⟨.int 7, none⟩)] 0).2.2.1 (by decide) (by decide)
  have h2 := (claim5_reject_frame "https://example.com/a"
    ⟨true, "https://example.com/a"⟩ "1.2.3.4" "" "http://sh.rt" ⟨true, 60, 3, false⟩
    [("count:count", ⟨.int 7, none⟩), ("host:1.2.3.4", ⟨.int 5, some 60⟩)]
    (setEntry [("count:count", ⟨.int 7, none⟩), ("host:1.2.3.4", ⟨.int 5, some 60⟩)]
      "host:1.2.3.4" ⟨.int 6, some 60⟩) 0).2.2.2
    (by decide) (by decide) (by decide) rfl
  exact ⟨h1, h2.1, h2.2.1⟩

theorem shortURL_ne (site short : String) : ShortURL site short ≠ short := by
  intro h
  have h2 : (ShortURL site short).data.length = short.data.length := by rw [h]
  rw [ShortURL] at h2
  simp [data_append, List.length_append] at h2
  omega

/-- C10: in a successful shorten response, `short` is the configured site
base — trailing slashes and spaces stripped at configuration time — joined
by `/` with the encoder's output (so never the bare code), and `url` is
the re-serialization `u.String()` of the parsed submitted URL. -/
theorem claim10_response_fields (raw origin : String) (u : URLRec) (host ua : String)
    (rc : RateCfg) (st st1 st2 : Store) (now : Nat) (nid : Int)
    (h0 : origin ≠ "") (hu : u.isAbs = true)
    (hrate : (if rc.active then allowedRate host ua rc st now else .ok (true, st))
      = .ok (true, st1))
    (hinc : doIncr st1 now "count:count" = .ok (nid, st2)) :
    (HandleAPI origin (some u) host ua rc (normalizeSite raw) st now).1
      = .ok u.str (normalizeSite raw ++ "/" ++ Encode nid.toNat)
    ∧ ShortURL (normalizeSite raw) (Encode nid.toNat) ≠ Encode nid.toNat := by
  have hmain := handleAPI_success origin u host ua (normalizeSite raw) rc st st1 st2
    now nid h0 hu hrate hinc
  exact ⟨by rw [hmain]; rfl, shortURL_ne _ _⟩

/-- C10 witness: a configured site `http://sh.rt///` is stripped to
`http://sh.rt` and the response's `short` field is the joined URL. -/
theorem claim10_response_fields_witness :
    (HandleAPI "https://example.com/a" (some ⟨true, "https://example.com/a"⟩)
        "1.2.3.4" "" ⟨false, 60, 3, false⟩ (normalizeSite "http://sh.rt///") [] 0).1
      = .ok "https://example.com/a" (normalizeSite "http://sh.rt///" ++ "/" ++ Encode 1)
    ∧ ShortURL (normalizeSite "http://sh.rt///") (Encode 1) ≠ Encode 1
    ∧ normalizeSite "http://sh.rt///" = "http://sh.rt" := by
  have h := claim10_response_fields "http://sh.rt///" "https://example.com/a"
    ⟨true, "https://example.com/a"⟩ "1.2.3.4" "" ⟨false, 60, 3, false⟩ [] []
    (setEntry [] "count:count" ⟨.int 1, none⟩) 0 1 (by decide) rfl rfl rfl
  exact ⟨h.1, h.2, by decide⟩

/-! ## Claim C6: resolver -/

/-- C6: `HandleRedirect` performs a single point lookup of `url:<code>`:
an absent key yields 404 (`notFound`), any other store failure (modelled
by a wrong-typed value at the key) yields 503 (`unavailable`), and a
present key yields a redirect to exactly the URL most recently stored
under it — in particular, immediately after `SET url:<code> target` the
resolver redirects to `target`. -/
theorem claim6_redirect (code target : String) (l : List String) (st : Store) (now : Nat) :
    (liveGet st now ("url:" ++ code) = none → HandleRedirect code st now = .notFound)
    ∧ (liveGet st now ("url:" ++ code) = some (.sset l) →
        HandleRedirect code st now = .unavailable)
    ∧ (liveGet st now ("url:" ++ code) = some (.str target) →
        HandleRedirect code st now = .redirect target)
    ∧ HandleRedirect code (doSet st ("url:" ++ code) target) now = .redirect target := by
  refine ⟨?_, ?_, ?_, ?_⟩
  · intro h; simp [HandleRedirect, DbKey_url, getString, h]
  · intro h; simp [HandleRedirect, DbKey_url, getString, h]
  · intro h; simp [HandleRedirect, DbKey_url, getString, h]
  · have hset : liveGet (doSet st ("url:" ++ code) target) now ("url:" ++ code)
        = some (.str target) := by
      rw [doSet, liveGet_setEntry_same]; rfl
    simp [HandleRedirect, DbKey_url, getString, hset]

/-- C6 witness: concrete stores exercising all four conjuncts. -/
theorem claim6_redirect_witness :
    HandleRedirect "zz" [] 0 = .notFound
    ∧ HandleRedirect "zz" [("url:zz", ⟨.sset ["x"], none⟩)] 0 = .unavailable
    ∧ HandleRedirect "zz" [("url:zz", ⟨.str "https://example.com/a", none⟩)] 0
        = .redirect "https://example.com/a"
    ∧ HandleRedirect "zz" (doSet [] ("url:" ++ "zz") "https://example.com/a") 0
        = .redirect "https://example.com/a" := by
  refine ⟨(claim6_redirect "zz" "u" [] [] 0).1 rfl,
          (claim6_redirect "zz" "u" ["x"] [("url:zz", ⟨.sset ["x"], none⟩)] 0).2.1 rfl,
          (claim6_redirect "zz" "https://example.com/a" []
            [("url:zz", ⟨.str "https://example.com/a", none⟩)] 0).2.2.1 rfl,
          (claim6_redirect "zz" "https://example.com/a" [] [] 0).2.2.2⟩

/-! ## CSRF comparison lemmas and claim C4 -/

theorem listEqc : ∀ a b : List Char,
    (((a.length == b.length) && ((a.zip b).all fun p => p.1 == p.2)) = true) ↔ a = b := by
  intro a
  induction a with
  | nil => intro b; cases b <;> simp
  | cons c as ih =>
    intro b
    cases b with
    | nil => simp
    | cons d bs =>
      simp only [List.length_cons, List.zip_cons_cons, List.all_cons, Bool.and_eq_true,
        beq_iff_eq, List.cons.injEq]
      constructor
      · rintro ⟨hlen, hcd, hall⟩
        refine ⟨hcd, (ih bs).mp ?_⟩
        simp only [Bool.and_eq_true, beq_iff_eq]
        exact ⟨by omega, hall⟩
      · rintro ⟨hcd, hrest⟩
        subst hcd; subst hrest
        have := (ih as).mpr rfl
        simp only [Bool.and_eq_true, beq_iff_eq] at this
        exact ⟨rfl, rfl, this.2⟩

theorem hmacEqual_eq (x y : String) : hmacEqual x y = decide (x = y) := by
  cases hb : hmacEqual x y with
  | true =>
    have hx : x = y := string_ext ((listEqc x.data y.data).mp (by
      simpa [hmacEqual] using hb))
    simp [hx]
  | false =>
    have hx : ¬(x = y) := by
      intro hc
      subst hc
      have ht : hmacEqual x x = true := by
        unfold hmacEqual
        exact (listEqc x.data x.data).mpr rfl
      rw [ht] at hb
      cases hb
    simp [hx]

/-- C4, counterexample: with no stored token for the user, `CheckCSRF`
compares against the literal sentinel string "not found", so the supplied
token "not found" verifies successfully — contradicting the claim that
verification fails for every supplied string when no token is stored. -/
theorem claim4_csrf_counterexample :
    CheckCSRF "admin" "not found" [] 0 = .ok true
      ∧ CheckCSRF "admin" "not found" [] 0 ≠ .ok false := by
  refine ⟨rfl, ?_⟩
  intro h
  have h2 : (Except.ok true : Except Err Bool) = .ok false := by
    rw [← h]; rfl
  cases h2

/-- C4, amended: when a non-expired token `v` is stored for the user,
`CheckCSRF` returns true exactly when the supplied string equals `v`
(hence false for any other string, including a different user's token when
the values differ); when no token is stored, the comparison is made
against the fixed sentinel "not found", so it returns true exactly when
the supplied string is the sentinel itself — absence is handled as a
non-matching value, not as an error. -/
theorem claim4_csrf_verify (user token v : String) (st : Store) (now : Nat) :
    (liveGet st now ("csrf:" ++ user) = some (.str v) →
      CheckCSRF user token st now = .ok (decide (token = v)))
    ∧ (liveGet st now ("csrf:" ++ user) = none →
      CheckCSRF user token st now = .ok (decide (token = "not found"))) := by
  constructor
  · intro h
    simp [CheckCSRF, DbKey_csrf, getString, h, hmacEqual_eq]
  · intro h
    simp [CheckCSRF, DbKey_csrf, getString, h, hmacEqual_eq]

/-- C4 witness: a matching stored token, a mismatching one, and the
no-token case. -/
theorem claim4_csrf_verify_witness :
    CheckCSRF "admin" "tok" [("csrf:admin", ⟨.str "tok", some 9⟩)] 0
        = .ok (decide (("tok" : String) = "tok"))
    ∧ CheckCSRF "admin" "evil" [("csrf:admin", ⟨.str "tok", some 9⟩)] 0
        = .ok (decide (("evil" : String) = "tok"))
    ∧ CheckCSRF "admin" "evil" [] 0 = .ok (decide (("evil" : String) = "not found")) :=
  ⟨(claim4_csrf_verify "admin" "tok" "tok"
      [("csrf:admin", ⟨.str "tok", some 9⟩)] 0).1 rfl,
   (claim4_csrf_verify "admin" "evil" "tok"
      [("csrf:admin", ⟨.str "tok", some 9⟩)] 0).1 rfl,
   (claim4_csrf_verify "admin" "evil" "tok" [] 0).2 rfl⟩

/-! ## Session lemmas and claim C7 -/

theorem doSRem_live_sset (st : Store) (now : Nat) (k m : String) (l : List String)
    (x : Option Nat)
    (hE : lookupEntry st k = some ⟨.sset l, x⟩)
    (hL : isLive (⟨.sset l, x⟩ : Entry) now = true) :
    doSRem st now k m
      = .ok (if m ∈ l then 1 else 0, setEntry st k ⟨.sset (l.filter (· != m)), x⟩) := by
  simp [doSRem, hE, hL]

theorem doSIsMember_sset (st : Store) (now : Nat) (k m : String) (l : List String)
    (h : liveGet st now k = some (.sset l)) :
    doSIsMember st now k m = .ok (if m ∈ l then 1 else 0) := by
  simp [doSIsMember, h]

theorem liveGet_congr (st1 st2 : Store) (now : Nat) (k : String)
    (h : lookupEntry st1 k = lookupEntry st2 k) :
    liveGet st1 now k = liveGet st2 now k := by
  unfold liveGet; rw [h]

theorem doSIsMember_congr (st1 st2 : Store) (now : Nat) (k m : String)
    (h : liveGet st1 now k = liveGet st2 now k) :
    doSIsMember st1 now k m = doSIsMember st2 now k m := by
  unfold doSIsMember; rw [h]

theorem Auth_sset (u tok : String) (st : Store) (now : Nat) (l : List String)
    (hsp : splitCookie (u ++ "::" ++ tok) = some (u, tok))
    (h : liveGet st now ("session:" ++ u) = some (.sset l)) :
    Auth (some (u ++ "::" ++ tok)) st now
      = (if tok ∈ l then .ok u else .err "invalid session key") := by
  simp only [Auth, hsp, DbKey_session, doSIsMember_sset st now _ tok l h]
  by_cases hm : tok ∈ l <;> simp [hm]

/-- C7: logging out an authenticated user removes exactly the session
token presented in the cookie from that username's session set: the
removed token no longer authenticates, every other token of the same
username is still in the set and still authenticates, and every other
username's session entry — and hence its authentication behavior — is
unchanged. -/
theorem claim7_logout_frame (u tok : String) (st : Store) (now : Nat)
    (l : List String) (x : Option Nat)
    (hu : u ≠ "anonymous")
    (hsp : splitCookie (u ++ "::" ++ tok) = some (u, tok))
    (hE : lookupEntry st ("session:" ++ u) = some ⟨.sset l, x⟩)
    (hL : isLive (⟨.sset l, x⟩ : Entry) now = true)
    (htok : tok ∈ l) :
    Logout u (some (u ++ "::" ++ tok)) st now
      = (302, setEntry st ("session:" ++ u) ⟨.sset (l.filter (· != tok)), x⟩)
    ∧ Auth (some (u ++ "::" ++ tok))
        (setEntry st ("session:" ++ u) ⟨.sset (l.filter (· != tok)), x⟩) now
      = .err "invalid session key"
    ∧ (∀ t', t' ∈ l → t' ≠ tok →
        t' ∈ l.filter (· != tok)
        ∧ (splitCookie (u ++ "::" ++ t') = some (u, t') →
            Auth (some (u ++ "::" ++ t'))
              (setEntry st ("session:" ++ u) ⟨.sset (l.filter (· != tok)), x⟩) now
            = .ok u))
    ∧ (∀ u', u' ≠ u →
        lookupEntry (setEntry st ("session:" ++ u) ⟨.sset (l.filter (· != tok)), x⟩)
            ("session:" ++ u')
          = lookupEntry st ("session:" ++ u'))
    ∧ (∀ u' t', u' ≠ u → splitCookie (u' ++ "::" ++ t') = some (u', t') →
        Auth (some (u' ++ "::" ++ t'))
            (setEntry st ("session:" ++ u) ⟨.sset (l.filter (· != tok)), x⟩) now
          = Auth (some (u' ++ "::" ++ t')) st now) := by
  have hkeyne : ∀ u', u' ≠ u → ("session:" ++ u') ≠ ("session:" ++ u) :=
    fun u' hne hc => hne (append_left_cancel hc)
  have hframe : ∀ u', u' ≠ u →
      lookupEntry (setEntry st ("session:" ++ u) ⟨.sset (l.filter (· != tok)), x⟩)
          ("session:" ++ u')
        = lookupEntry st ("session:" ++ u') :=
    fun u' hne => lookupEntry_setEntry_ne st _ _ _ (hkeyne u' hne)
  have hL' : isLive (⟨.sset (l.filter (· != tok)), x⟩ : Entry) now = true := by
    simpa [isLive] using hL
  have hlive' : liveGet (setEntry st ("session:" ++ u) ⟨.sset (l.filter (· != tok)), x⟩)
      now ("session:" ++ u) = some (.sset (l.filter (· != tok))) := by
    simp only [liveGet, lookupEntry_setEntry_same, hL', if_true]
  refine ⟨?_, ?_, ?_, hframe, ?_⟩
  · simp [Logout, hu, hsp, DbKey_session,
      doSRem_live_sset st now ("session:" ++ u) tok l x hE hL]
  · rw [Auth_sset u tok _ now (l.filter (· != tok)) hsp hlive']
    have hnm : tok ∉ l.filter (· != tok) := by
      intro hc
      exact absurd ((List.mem_filter.mp hc).2) (by simp)
    rw [if_neg hnm]
  · intro t' ht'l ht'ne
    have hmem : t' ∈ l.filter (· != tok) :=
      List.mem_filter.mpr ⟨ht'l, by simpa using ht'ne⟩
    refine ⟨hmem, fun hsp' => ?_⟩
    rw [Auth_sset u t' _ now (l.filter (· != tok)) hsp' hlive']
    rw [if_pos hmem]
  · intro u' t' hne hsp'
    have hmem := doSIsMember_congr
      (setEntry st ("session:" ++ u) ⟨.sset (l.filter (· != tok)), x⟩) st now
      ("session:" ++ u') t'
      (liveGet_congr _ _ now _ (hframe u' hne))
    simp only [Auth, hsp', DbKey_session, hmem]

/-- C7 witness: a store with sessions for `admin` (tokens t1, t2) and
`bob` (token t3); logging `admin` out of t1 removes only t1. -/
theorem claim7_logout_frame_witness :
    Logout "admin" (some ("admin" ++ "::" ++ "t1"))
        [("session:admin", ⟨.sset ["t1", "t2"], none⟩),
         ("session:bob", ⟨.sset ["t3"], none⟩)] 0
      = (302, setEntry
          [("session:admin", ⟨.sset ["t1", "t2"], none⟩),
           ("session:bob", ⟨.sset ["t3"], none⟩)]
          ("session:" ++ "admin") ⟨.sset (["t1", "t2"].filter (· != "t1")), none⟩)
    ∧ Auth (some ("admin" ++ "::" ++ "t1"))
        (setEntry
          [("session:admin", ⟨.sset ["t1", "t2"], none⟩),
           ("session:bob", ⟨.sset ["t3"], none⟩)]
          ("session:" ++ "admin") ⟨.sset (["t1", "t2"].filter (· != "t1")), none⟩) 0
      = .err "invalid session key"
    ∧ Auth (some ("admin" ++ "::" ++ "t2"))
        (setEntry
          [("session:admin", ⟨.sset ["t1", "t2"], none⟩),
           ("session:bob", ⟨.sset ["t3"], none⟩)]
          ("session:" ++ "admin") ⟨.sset (["t1", "t2"].filter (· != "t1")), none⟩) 0
      = .ok "admin"
    ∧ Auth (some ("bob" ++ "::" ++ "t3"))
        (setEntry
          [("session:admin", ⟨.sset ["t1", "t2"], none⟩),
           ("session:bob", ⟨.sset ["t3"], none⟩)]
          ("session:" ++ "admin") ⟨.sset (["t1", "t2"].filter (· != "t1")), none⟩) 0
      = Auth (some ("bob" ++ "::" ++ "t3"))
          [("session:admin", ⟨.sset ["t1", "t2"], none⟩),
           ("session:bob", ⟨.sset ["t3"], none⟩)] 0 := by
  have h := claim7_logout_frame "admin" "t1"
    [("session:admin", ⟨.sset ["t1", "t2"], none⟩),
     ("session:bob", ⟨.sset ["t3"], none⟩)] 0 ["t1", "t2"] none
    (by decide) rfl rfl rfl (by decide)
  exact ⟨h.1, h.2.1,
         (h.2.2.1 "t2" (by decide) (by decide)).2 rfl,
         h.2.2.2.2 "bob" "t3" (by decide) rfl⟩

/-! ## Claim C9: statistics with an unwritten counter -/

theorem liveGet_none_of_lookup_none (st : Store) (now : Nat) (k : String)
    (h : lookupEntry st k = none) : liveGet st now k = none := by
  simp [liveGet, h]

theorem getInt_nil (st : Store) (now : Nat) (k : String)
    (h : liveGet st now k = none) : getInt st now k = .error .nil := by
  simp [getInt, h]

theorem getString_nil_inv (st : Store) (now : Nat) (k : String)
    (h : getString st now k = .error .nil) : liveGet st now k = none := by
  cases hv : liveGet st now k with
  | none => rfl
  | some v => cases v <;> simp [getString, hv] at h

/-- C9: on a store where the counter key `count:count` has never been
written, the admin `Index` operation does not report a zero total: the
counter GET fails with `redis.ErrNil` and the whole operation returns 500
instead of a statistics page. -/
theorem claim9_index_no_counter (user freshTok site : String) (cto : Nat) (st : Store)
    (now : Nat) (h : lookupEntry st "count:count" = none) :
    (Index user freshTok site cto st now).1 = .err 500 := by
  cases hg : getString st now ("csrf:" ++ user) with
  | ok token =>
    have hget : GetCSRF user freshTok cto st now = .ok (token, st) := by
      simp [GetCSRF, DbKey_csrf, hg]
    have hint : getInt st now "count:count" = .error .nil :=
      getInt_nil st now _ (liveGet_none_of_lookup_none st now _ h)
    simp [Index, hget, DbKey_count, hint]
  | error e =>
    cases e with
    | nil =>
      have hnone := getString_nil_inv st now _ hg
      have hsetnx : doSetNX st now ("csrf:" ++ user) freshTok
          = (1, doSet st ("csrf:" ++ user) freshTok) := by
        simp [doSetNX, hnone]
      have hget : GetCSRF user freshTok cto st now
          = .ok (freshTok, (doExpire (doSet st ("csrf:" ++ user) freshTok) now
              ("csrf:" ++ user) cto).2) := by
        simp [GetCSRF, DbKey_csrf, hg, hsetnx]
      have hcnt : lookupEntry ((doExpire (doSet st ("csrf:" ++ user) freshTok) now
          ("csrf:" ++ user) cto).2) "count:count" = none := by
        rw [doExpire_frame _ now _ cto _ (fun hc => csrfKey_ne_countKey user hc.symm)]
        rw [doSet, lookupEntry_setEntry_ne st _ _ _
          (fun hc => csrfKey_ne_countKey user hc.symm)]
        exact h
      have hint := getInt_nil _ now _ (liveGet_none_of_lookup_none _ now _ hcnt)
      simp [Index, hget, DbKey_count, hint]
    | wrongType =>
      have hget : GetCSRF user freshTok cto st now = .error (.redis .wrongType) := by
        simp [GetCSRF, DbKey_csrf, hg]
      simp [Index, hget]
    | parse =>
      have hget : GetCSRF user freshTok cto st now = .error (.redis .parse) := by
        simp [GetCSRF, DbKey_csrf, hg]
      simp [Index, hget]

/-- C9 witness: the empty store (no allocation has ever happened). -/
theorem claim9_index_no_counter_witness :
    (Index "anonymous" "freshtok" "http://sh.rt" 3600 [] 0).1 = .err 500 :=
  claim9_index_no_counter "anonymous" "freshtok" "http://sh.rt" 3600 [] 0 rfl

end Lruss
